import Mathlib

/-! Verification of the box layout engine of `three-troika-ui`.

Shallow embedding of `src/UIPanel.ts` (class `UIPanel`): the container state,
its `layout()` method and the public operations that mutate it.  JavaScript
numbers are modelled as exact rationals (`ℚ`); all arithmetic performed by the
layout engine is `+ - * /`, so `ℚ` is a faithful model of the ideal real
semantics.  Children are modelled by their layout-relevant fields only
(`width`, `height`, `position`), matching the `UIElement` surface the layout
engine reads and writes.
-/

namespace ThreeTroikaUI

/-- Layout direction, `type LayoutDirection = 'horizontal' | 'vertical'`. -/
inductive LayoutDirection where
  | horizontal
  | vertical
deriving DecidableEq, Repr

/-- Cross-axis alignment, `type LayoutAlign = 'start' | 'center' | 'end'`. -/
inductive LayoutAlign where
  | start
  | center
  | «end»
deriving DecidableEq, Repr

/-- Main-axis distribution, `type LayoutJustify = 'start' | 'center' | 'end' | 'space-between' | 'space-around'`. -/
inductive LayoutJustify where
  | start
  | center
  | «end»
  | spaceBetween
  | spaceAround
deriving DecidableEq, Repr

/-- A 3D position (the `position` field of a scene-graph node). -/
structure Vec3 where
  x : ℚ
  y : ℚ
  z : ℚ
deriving DecidableEq, Repr

/-- The part of a `UIElement` child that `UIPanel.layout` reads (`width`,
`height`) and writes (`position`). -/
structure UIElement where
  width : ℚ
  height : ℚ
  position : Vec3
deriving DecidableEq, Repr

/-- The four paddings, `[top, right, bottom, left]` in the source order. -/
structure Padding where
  top : ℚ
  right : ℚ
  bottom : ℚ
  left : ℚ
deriving DecidableEq, Repr

/-- State of a `UIPanel`: own size, layout parameters, the optional background
`UIBox` (modelled by its width/height, the only fields layout touches), and
the ordered child list `_children`. -/
structure UIPanel where
  width : ℚ
  height : ℚ
  padding : Padding
  gap : ℚ
  direction : LayoutDirection
  align : LayoutAlign
  justify : LayoutJustify
  autoSize : Bool
  background : Option (ℚ × ℚ)
  children : List UIElement
deriving DecidableEq, Repr

/-- Main-axis size of a child: `horizontal → child.width`, `vertical → child.height`. -/
def childMainSize (d : LayoutDirection) (c : UIElement) : ℚ :=
  match d with
  | .horizontal => c.width
  | .vertical => c.height

/-- Cross-axis size of a child: `horizontal → child.height`, `vertical → child.width`. -/
def childCrossSize (d : LayoutDirection) (c : UIElement) : ℚ :=
  match d with
  | .horizontal => c.height
  | .vertical => c.width

/-- Sum of the children's main-axis sizes (the loop accumulating `totalMainSize`
before the gap term is added). -/
def totalChildMainSize (d : LayoutDirection) (cs : List UIElement) : ℚ :=
  (cs.map (childMainSize d)).sum

/-- Largest cross-axis size among the children (the loop accumulating
`maxCrossSize`, starting from 0 as in the source). -/
def maxChildCrossSize (d : LayoutDirection) (cs : List UIElement) : ℚ :=
  cs.foldl (fun m c => max m (childCrossSize d c)) 0

/-- First-child edge coordinate along the main axis:
`horizontal → -width/2 + paddingLeft`, `vertical → height/2 - paddingTop`
(line 160 of `UIPanel.ts`; reads the possibly auto-resized `this._width`/`this._height`). -/
def mainStartOf (d : LayoutDirection) (width height : ℚ) (pad : Padding) : ℚ :=
  match d with
  | .horizontal => -width / 2 + pad.left
  | .vertical => height / 2 - pad.top

/-- The `switch (this._justify)` block: returns the starting `mainPos` and the
effective `spacing`.  `count` is the child count, `n` its cast to ℚ. -/
def resolveJustify (j : LayoutJustify) (gap : ℚ) (count : Nat) (n : ℚ)
    (mainStart mainSize totalMainSize : ℚ) : ℚ × ℚ :=
  match j with
  | .start => (mainStart, gap)
  | .center => (mainStart + (mainSize - totalMainSize) / 2, gap)
  | .«end» => (mainStart + mainSize - totalMainSize, gap)
  | .spaceBetween =>
    if 1 < count then
      (mainStart, (mainSize - (totalMainSize - gap * (n - 1))) / (n - 1))
    else
      (mainStart, gap)
  | .spaceAround =>
    let sp := (mainSize - (totalMainSize - gap * (n - 1))) / (n + 1)
    (mainStart + sp, sp)

/-- Everything the per-child placement loop reads besides the running `mainPos`:
direction, align, the container size current at placement time, padding and the
resolved spacing. -/
structure PlaceCtx where
  direction : LayoutDirection
  align : LayoutAlign
  width : ℚ
  height : ℚ
  padding : Padding
  spacing : ℚ
deriving DecidableEq, Repr

/-- The `switch (this._align)` block computing `crossPos` for one child. -/
def crossPosOf (ctx : PlaceCtx) (cc : ℚ) : ℚ :=
  match ctx.align with
  | .start =>
    match ctx.direction with
    | .horizontal => -ctx.height / 2 + ctx.padding.bottom + cc / 2
    | .vertical => -ctx.width / 2 + ctx.padding.left + cc / 2
  | .center => 0
  | .«end» =>
    match ctx.direction with
    | .horizontal => ctx.height / 2 - ctx.padding.top - cc / 2
    | .vertical => ctx.width / 2 - ctx.padding.right - cc / 2

/-- One iteration of the placement loop: writes the child's position and
advances `mainPos` (`+` for horizontal, `-` for vertical); `z` is set to the
fixed depth `0.01`. -/
def placeChild (ctx : PlaceCtx) (mainPos : ℚ) (c : UIElement) : ℚ × UIElement :=
  let cm := childMainSize ctx.direction c
  let cc := childCrossSize ctx.direction c
  let cross := crossPosOf ctx cc
  match ctx.direction with
  | .horizontal =>
    (mainPos + cm + ctx.spacing, { c with position := ⟨mainPos + cm / 2, cross, 1 / 100⟩ })
  | .vertical =>
    (mainPos - (cm + ctx.spacing), { c with position := ⟨cross, mainPos - cm / 2, 1 / 100⟩ })

/-- The placement loop over the ordered child list. -/
def placeChildren (ctx : PlaceCtx) : ℚ → List UIElement → List UIElement
  | _, [] => []
  | mainPos, c :: cs =>
    let r := placeChild ctx mainPos c
    r.2 :: placeChildren ctx r.1 cs

/-- The `layout()` method of `UIPanel` (lines 121-232 of `UIPanel.ts`),
translated statement by statement.  Note the source order: `contentWidth` /
`contentHeight` are computed from the size on entry (lines 125-126), the
autoSize block then possibly overwrites `this._width` / `this._height` and the
background (lines 144-155), and positioning reads `this._width` / `this._height`
for `mainStart` and the cross-axis edges but uses the earlier `contentWidth` /
`contentHeight` for `mainSize`. -/
def layout (p : UIPanel) : UIPanel :=
  if p.children.length = 0 then p
  else
    let pad := p.padding
    let contentWidth := p.width - pad.left - pad.right
    let contentHeight := p.height - pad.top - pad.bottom
    let n : ℚ := (p.children.length : ℚ)
    let totalMainSize := totalChildMainSize p.direction p.children + p.gap * (n - 1)
    let maxCross := maxChildCrossSize p.direction p.children
    let width :=
      if p.autoSize then
        match p.direction with
        | .horizontal => totalMainSize + pad.left + pad.right
        | .vertical => maxCross + pad.left + pad.right
      else p.width
    let height :=
      if p.autoSize then
        match p.direction with
        | .horizontal => maxCross + pad.top + pad.bottom
        | .vertical => totalMainSize + pad.top + pad.bottom
      else p.height
    let background :=
      if p.autoSize then p.background.map (fun _ => (width, height)) else p.background
    let mainSize :=
      match p.direction with
      | .horizontal => contentWidth
      | .vertical => contentHeight
    let mainStart := mainStartOf p.direction width height pad
    let ms := resolveJustify p.justify p.gap p.children.length n mainStart mainSize totalMainSize
    let ctx : PlaceCtx := ⟨p.direction, p.align, width, height, pad, ms.2⟩
    { p with
      width := width
      height := height
      background := background
      children := placeChildren ctx ms.1 p.children }

/-- Padding argument of the constructor and of `setPadding`:
`number | [number, number, number, number]`.  A single number expands to all
four sides. -/
def expandPadding : ℚ ⊕ Padding → Padding
  | .inl v => ⟨v, v, v, v⟩
  | .inr pad => pad

/-- The `UIPanelConfig` record: every field independently optional. Only the
fields the embedded state observes are modelled (colors and opacity affect
only material state, not geometry). -/
structure UIPanelConfig where
  width : Option ℚ
  height : Option ℚ
  padding : Option (ℚ ⊕ Padding)
  gap : Option ℚ
  direction : Option LayoutDirection
  align : Option LayoutAlign
  justify : Option LayoutJustify
  hasBackgroundColor : Bool
  borderWidth : Option ℚ
  autoSize : Option Bool

/-- The `UIPanel` constructor (lines 39-74): defaults, padding expansion, and
background creation when `backgroundColor !== undefined || borderWidth` is
truthy; the background `UIBox` is created with the panel's width/height. -/
def UIPanel.ofConfig (cfg : UIPanelConfig) : UIPanel :=
  let width := cfg.width.getD 1
  let height := cfg.height.getD 1
  let hasBackground :=
    cfg.hasBackgroundColor || (match cfg.borderWidth with
      | some w => w != 0
      | none => false)
  { width := width
    height := height
    padding := (cfg.padding.map expandPadding).getD ⟨0, 0, 0, 0⟩
    gap := cfg.gap.getD 0
    direction := cfg.direction.getD .vertical
    align := cfg.align.getD .center
    justify := cfg.justify.getD .start
    autoSize := cfg.autoSize.getD false
    background := if hasBackground then some (width, height) else none
    children := [] }

/-- Method `addChild`: push the element and re-layout. -/
def UIPanel.addChild (p : UIPanel) (e : UIElement) : UIPanel :=
  layout { p with children := p.children ++ [e] }

/-- Method `removeChild`: splice out the first occurrence (if any) and re-layout
(`indexOf` identity is modelled by value equality). -/
def UIPanel.removeChild (p : UIPanel) (e : UIElement) : UIPanel :=
  if e ∈ p.children then layout { p with children := p.children.erase e } else p

/-- Method `clearChildren`: empty the list and re-layout. -/
def UIPanel.clearChildren (p : UIPanel) : UIPanel :=
  layout { p with children := [] }

/-- Method `setDirection`: update and re-layout. -/
def UIPanel.setDirection (p : UIPanel) (d : LayoutDirection) : UIPanel :=
  layout { p with direction := d }

/-- Method `setAlign`: update and re-layout. -/
def UIPanel.setAlign (p : UIPanel) (a : LayoutAlign) : UIPanel :=
  layout { p with align := a }

/-- Method `setJustify`: update and re-layout. -/
def UIPanel.setJustify (p : UIPanel) (j : LayoutJustify) : UIPanel :=
  layout { p with justify := j }

/-- Method `setGap`: update and re-layout. -/
def UIPanel.setGap (p : UIPanel) (g : ℚ) : UIPanel :=
  layout { p with gap := g }

/-- Method `setPadding`: expand, update and re-layout. -/
def UIPanel.setPadding (p : UIPanel) (pad : ℚ ⊕ Padding) : UIPanel :=
  layout { p with padding := expandPadding pad }

/-- Method `setSize` override (lines 303-311): set own size, resize the background if
present, then re-layout. -/
def UIPanel.setSize (p : UIPanel) (w h : ℚ) : UIPanel :=
  layout { p with
    width := w
    height := h
    background := p.background.map (fun _ => (w, h)) }

/-- One public mutating operation on a panel (claim C5 quantifies over
arbitrary sequences of these). -/
inductive PanelOp where
  | addChild (e : UIElement)
  | removeChild (e : UIElement)
  | clearChildren
  | setDirection (d : LayoutDirection)
  | setAlign (a : LayoutAlign)
  | setJustify (j : LayoutJustify)
  | setGap (g : ℚ)
  | setPadding (pad : ℚ ⊕ Padding)
  | setSize (w h : ℚ)
  | doLayout

/-- Dispatch one public operation. -/
def runOp (op : PanelOp) (p : UIPanel) : UIPanel :=
  match op with
  | .addChild e => p.addChild e
  | .removeChild e => p.removeChild e
  | .clearChildren => p.clearChildren
  | .setDirection d => p.setDirection d
  | .setAlign a => p.setAlign a
  | .setJustify j => p.setJustify j
  | .setGap g => p.setGap g
  | .setPadding pad => p.setPadding pad
  | .setSize w h => p.setSize w h
  | .doLayout => layout p

/-- Background synchronisation invariant: when a background visual exists, its
size equals the container's current size. -/
def bgSync (p : UIPanel) : Prop :=
  p.background = none ∨ p.background = some (p.width, p.height)

instance (p : UIPanel) : Decidable (bgSync p) := by
  unfold bgSync
  infer_instance

/-- Content extent along the main axis computed from a panel's CURRENT size
(step 1 of the spec's algorithm: the content box). -/
def contentMainExtent (p : UIPanel) : ℚ :=
  match p.direction with
  | .horizontal => p.width - p.padding.left - p.padding.right
  | .vertical => p.height - p.padding.top - p.padding.bottom

/-- Step 4 of the spec's algorithm in isolation: when `autoSize`, overwrite the
container's size from the children and propagate it to the background. -/
def autoSizeStep (p : UIPanel) : UIPanel :=
  if p.autoSize then
    let pad := p.padding
    let n : ℚ := (p.children.length : ℚ)
    let totalMainSize := totalChildMainSize p.direction p.children + p.gap * (n - 1)
    let maxCross := maxChildCrossSize p.direction p.children
    let width :=
      match p.direction with
      | .horizontal => totalMainSize + pad.left + pad.right
      | .vertical => maxCross + pad.left + pad.right
    let height :=
      match p.direction with
      | .horizontal => maxCross + pad.top + pad.bottom
      | .vertical => totalMainSize + pad.top + pad.bottom
    { p with
      width := width
      height := height
      background := p.background.map (fun _ => (width, height)) }
  else p

/-- Steps 5-7 of the spec's algorithm in isolation: position the children of
`p`, taking `mainStart` and the cross-axis edges from `p`'s current size while
the content main extent `mainSize` is supplied as an explicit argument. -/
def positionStep (mainSize : ℚ) (p : UIPanel) : UIPanel :=
  let n : ℚ := (p.children.length : ℚ)
  let totalMainSize := totalChildMainSize p.direction p.children + p.gap * (n - 1)
  let mainStart := mainStartOf p.direction p.width p.height p.padding
  let ms := resolveJustify p.justify p.gap p.children.length n mainStart mainSize totalMainSize
  let ctx : PlaceCtx := ⟨p.direction, p.align, p.width, p.height, p.padding, ms.2⟩
  { p with children := placeChildren ctx ms.1 p.children }

/-- Phased reading of the algorithm (the amended claim C1): the size and
background are recomputed from the children BEFORE positioning, positioning
takes `mainStart` (and the cross edges) from the recomputed size, but the
content main extent `mainSize` is the one of the size the container had on
entry. -/
def layoutPhased (p : UIPanel) : UIPanel :=
  if p.children.length = 0 then p
  else positionStep (contentMainExtent p) (autoSizeStep p)

/-- Formalisation of claim C1 as stated: both `mainStart` AND `mainSize` are
derived from the recomputed container size, i.e. the content main extent is
re-resolved after the autoSize step. -/
def layoutClaimC1 (p : UIPanel) : UIPanel :=
  if p.children.length = 0 then p
  else positionStep (contentMainExtent (autoSizeStep p)) (autoSizeStep p)

/-! ### Heap model for `getChildren` (claim C10)

`getChildren()` returns `[...this._children]`.  Aliasing is observable only
through reference identity, so for this one claim arrays live in an explicit
store and the panel holds a reference to its `_children` array. -/

/-- A store of arrays of elements; a reference is an index into it. -/
structure ChildStore where
  arrays : List (List UIElement)
deriving DecidableEq, Repr

/-- Dereference an array (out-of-range reads give the empty array). -/
def ChildStore.read (st : ChildStore) (r : Nat) : List UIElement :=
  st.arrays.getD r []

/-- In-place mutation of the array behind a reference. -/
def ChildStore.write (st : ChildStore) (r : Nat) (v : List UIElement) : ChildStore :=
  ⟨st.arrays.set r v⟩

/-- Allocate a new array, returning the new store and a fresh reference. -/
def ChildStore.alloc (st : ChildStore) (v : List UIElement) : ChildStore × Nat :=
  (⟨st.arrays ++ [v]⟩, st.arrays.length)

/-- Method `getChildren()` in the heap model: `[...this._children]` reads the panel's
array (behind reference `r`) and allocates a FRESH array with the same
contents, returning the fresh reference. -/
def getChildrenRef (st : ChildStore) (r : Nat) : ChildStore × Nat :=
  st.alloc (st.read r)

/-! ### Basic lemmas about the placement loop and `layout` -/

lemma placeChild_width (ctx : PlaceCtx) (pos : ℚ) (c : UIElement) :
    (placeChild ctx pos c).2.width = c.width := by
  cases h : ctx.direction <;> simp [placeChild, h]

lemma placeChild_height (ctx : PlaceCtx) (pos : ℚ) (c : UIElement) :
    (placeChild ctx pos c).2.height = c.height := by
  cases h : ctx.direction <;> simp [placeChild, h]

/-- Two child lists with the same sizes in the same order (positions may differ). -/
def sameShapes (cs₁ cs₂ : List UIElement) : Prop :=
  cs₁.map (fun c => (c.width, c.height)) = cs₂.map (fun c => (c.width, c.height))

lemma placeChildren_shapes (ctx : PlaceCtx) (pos : ℚ) (cs : List UIElement) :
    sameShapes (placeChildren ctx pos cs) cs := by
  induction cs generalizing pos with
  | nil => rfl
  | cons c cs ih =>
    unfold placeChildren sameShapes
    simp only [List.map_cons, List.cons.injEq]
    exact ⟨by rw [placeChild_width, placeChild_height], ih _⟩

lemma placeChildren_length (ctx : PlaceCtx) (pos : ℚ) (cs : List UIElement) :
    (placeChildren ctx pos cs).length = cs.length := by
  have h := placeChildren_shapes ctx pos cs
  have := congrArg List.length h
  simpa using this

lemma sameShapes_widths {cs₁ cs₂ : List UIElement} (h : sameShapes cs₁ cs₂) :
    cs₁.map (fun c => c.width) = cs₂.map (fun c => c.width) := by
  have := congrArg (List.map Prod.fst) h
  simpa [List.map_map, Function.comp] using this

lemma sameShapes_heights {cs₁ cs₂ : List UIElement} (h : sameShapes cs₁ cs₂) :
    cs₁.map (fun c => c.height) = cs₂.map (fun c => c.height) := by
  have := congrArg (List.map Prod.snd) h
  simpa [List.map_map, Function.comp] using this

lemma sameShapes_length {cs₁ cs₂ : List UIElement} (h : sameShapes cs₁ cs₂) :
    cs₁.length = cs₂.length := by
  have := congrArg List.length h
  simpa using this

lemma totalChildMainSize_congr (d : LayoutDirection) {cs₁ cs₂ : List UIElement}
    (h : sameShapes cs₁ cs₂) :
    totalChildMainSize d cs₁ = totalChildMainSize d cs₂ := by
  unfold totalChildMainSize childMainSize
  cases d
  · rw [sameShapes_widths h]
  · rw [sameShapes_heights h]

lemma maxChildCrossSize_congr (d : LayoutDirection) {cs₁ cs₂ : List UIElement}
    (h : sameShapes cs₁ cs₂) :
    maxChildCrossSize d cs₁ = maxChildCrossSize d cs₂ := by
  unfold maxChildCrossSize
  cases d with
  | horizontal =>
    have hh := sameShapes_heights h
    calc cs₁.foldl (fun m c => max m (childCrossSize .horizontal c)) 0
        = (cs₁.map fun c => c.height).foldl max 0 := by
          rw [List.foldl_map]; rfl
      _ = (cs₂.map fun c => c.height).foldl max 0 := by rw [hh]
      _ = cs₂.foldl (fun m c => max m (childCrossSize .horizontal c)) 0 := by
          rw [List.foldl_map]; rfl
  | vertical =>
    have hw := sameShapes_widths h
    calc cs₁.foldl (fun m c => max m (childCrossSize .vertical c)) 0
        = (cs₁.map fun c => c.width).foldl max 0 := by
          rw [List.foldl_map]; rfl
      _ = (cs₂.map fun c => c.width).foldl max 0 := by rw [hw]
      _ = cs₂.foldl (fun m c => max m (childCrossSize .vertical c)) 0 := by
          rw [List.foldl_map]; rfl

lemma placeChild_congr (ctx : PlaceCtx) (pos : ℚ) {c₁ c₂ : UIElement}
    (hw : c₁.width = c₂.width) (hh : c₁.height = c₂.height) :
    (placeChild ctx pos c₁).1 = (placeChild ctx pos c₂).1 ∧
      (placeChild ctx pos c₁).2 = (placeChild ctx pos c₂).2 := by
  cases c₁; cases c₂
  simp only at hw hh
  subst hw hh
  unfold placeChild childMainSize childCrossSize
  cases ctx.direction <;> simp

lemma placeChildren_congr (ctx : PlaceCtx) (pos : ℚ) {cs₁ cs₂ : List UIElement}
    (h : sameShapes cs₁ cs₂) :
    placeChildren ctx pos cs₁ = placeChildren ctx pos cs₂ := by
  induction cs₁ generalizing cs₂ pos with
  | nil =>
    cases cs₂ with
    | nil => rfl
    | cons c cs => exact absurd (congrArg List.length h) (by simp)
  | cons c cs ih =>
    cases cs₂ with
    | nil => exact absurd (congrArg List.length h) (by simp)
    | cons c₂ cs₂ =>
      unfold sameShapes at h
      simp only [List.map_cons, List.cons.injEq, Prod.mk.injEq] at h
      obtain ⟨⟨hw, hh⟩, htl⟩ := h
      obtain ⟨h1, h2⟩ := placeChild_congr ctx pos hw hh
      show (placeChild ctx pos c).2 :: placeChildren ctx (placeChild ctx pos c).1 cs
          = (placeChild ctx pos c₂).2 :: placeChildren ctx (placeChild ctx pos c₂).1 cs₂
      rw [h2, h1, ih _ htl]

lemma layout_of_empty {p : UIPanel} (h : p.children = []) : layout p = p := by
  unfold layout
  rw [if_pos (by simp [h])]

lemma layout_padding (p : UIPanel) : (layout p).padding = p.padding := by
  unfold layout; split <;> rfl

lemma layout_gap (p : UIPanel) : (layout p).gap = p.gap := by
  unfold layout; split <;> rfl

lemma layout_direction (p : UIPanel) : (layout p).direction = p.direction := by
  unfold layout; split <;> rfl

lemma layout_align (p : UIPanel) : (layout p).align = p.align := by
  unfold layout; split <;> rfl

lemma layout_justify (p : UIPanel) : (layout p).justify = p.justify := by
  unfold layout; split <;> rfl

lemma layout_autoSize (p : UIPanel) : (layout p).autoSize = p.autoSize := by
  unfold layout; split <;> rfl

lemma layout_shapes (p : UIPanel) : sameShapes (layout p).children p.children := by
  unfold layout
  split
  · rfl
  · exact placeChildren_shapes _ _ _

lemma layout_length (p : UIPanel) : (layout p).children.length = p.children.length :=
  sameShapes_length (layout_shapes p)

/-- Main-axis total including gaps (`totalMainSize` after line 141). -/
def autoMainTotal (p : UIPanel) : ℚ :=
  totalChildMainSize p.direction p.children + p.gap * ((p.children.length : ℚ) - 1)

/-- The width the autoSize branch assigns. -/
def autoWidth (p : UIPanel) : ℚ :=
  match p.direction with
  | .horizontal => autoMainTotal p + p.padding.left + p.padding.right
  | .vertical => maxChildCrossSize p.direction p.children + p.padding.left + p.padding.right

/-- The height the autoSize branch assigns. -/
def autoHeight (p : UIPanel) : ℚ :=
  match p.direction with
  | .horizontal => maxChildCrossSize p.direction p.children + p.padding.top + p.padding.bottom
  | .vertical => autoMainTotal p + p.padding.top + p.padding.bottom

lemma layout_size_of_autoSize {p : UIPanel} (hau : p.autoSize = true)
    (hne : p.children ≠ []) :
    (layout p).width = autoWidth p ∧ (layout p).height = autoHeight p ∧
      (layout p).background = p.background.map (fun _ => (autoWidth p, autoHeight p)) := by
  unfold layout
  rw [if_neg (by simpa [List.length_eq_zero] using hne)]
  unfold autoWidth autoHeight autoMainTotal
  cases hd : p.direction <;> simp [hau, hd]

lemma layout_size_of_not_autoSize {p : UIPanel} (hau : p.autoSize = false) :
    (layout p).width = p.width ∧ (layout p).height = p.height ∧
      (layout p).background = p.background := by
  unfold layout
  split
  · exact ⟨rfl, rfl, rfl⟩
  · simp [hau]

/-- The layout result is fully determined by the panel's parameters, size,
background and the SIZES of its children: the children's incoming positions
are irrelevant. -/
lemma layout_congr {p₁ p₂ : UIPanel}
    (hw : p₁.width = p₂.width) (hh : p₁.height = p₂.height)
    (hpad : p₁.padding = p₂.padding) (hg : p₁.gap = p₂.gap)
    (hd : p₁.direction = p₂.direction) (ha : p₁.align = p₂.align)
    (hj : p₁.justify = p₂.justify) (hau : p₁.autoSize = p₂.autoSize)
    (hb : p₁.background = p₂.background)
    (hc : sameShapes p₁.children p₂.children) :
    layout p₁ = layout p₂ := by
  obtain ⟨w₁, h₁, pad₁, g₁, d₁, a₁, j₁, au₁, b₁, cs₁⟩ := p₁
  obtain ⟨w₂, h₂, pad₂, g₂, d₂, a₂, j₂, au₂, b₂, cs₂⟩ := p₂
  simp only at hw hh hpad hg hd ha hj hau hb hc
  subst hw hh hpad hg hd ha hj hau hb
  have hlen := sameShapes_length hc
  have htot := totalChildMainSize_congr d₁ hc
  have hmax := maxChildCrossSize_congr d₁ hc
  unfold layout
  by_cases h0 : cs₂.length = 0
  · rw [if_pos (show cs₁.length = 0 by omega), if_pos h0]
    obtain rfl : cs₁ = [] := List.length_eq_zero.mp (by omega)
    obtain rfl : cs₂ = [] := List.length_eq_zero.mp h0
    rfl
  · rw [if_neg (show ¬cs₁.length = 0 by omega), if_neg h0]
    simp only [hlen, htot, hmax]
    rw [placeChildren_congr _ _ hc]

lemma autoSize_formulas_congr {p₁ p₂ : UIPanel} (hpad : p₁.padding = p₂.padding)
    (hg : p₁.gap = p₂.gap) (hd : p₁.direction = p₂.direction)
    (hc : sameShapes p₁.children p₂.children) :
    autoWidth p₁ = autoWidth p₂ ∧ autoHeight p₁ = autoHeight p₂ := by
  unfold autoWidth autoHeight autoMainTotal
  rw [hpad, hg, hd, totalChildMainSize_congr _ hc, maxChildCrossSize_congr _ hc,
    sameShapes_length hc]
  exact ⟨rfl, rfl⟩

lemma layout_children_ne {p : UIPanel} (h : p.children ≠ []) :
    (layout p).children ≠ [] := by
  intro hcon
  apply h
  have hl := layout_length p
  rw [hcon] at hl
  exact (List.length_eq_zero.mp hl.symm)

/-- After one `layout`, a second call no longer changes the container's size
or background, so from the second call on the results are stable. -/
lemma layout_fix (p : UIPanel) :
    layout (layout (layout p)) = layout (layout p) := by
  by_cases h0 : p.children = []
  · rw [layout_of_empty h0, layout_of_empty h0, layout_of_empty h0]
  · have hqne : (layout p).children ≠ [] := layout_children_ne h0
    have hshapes : sameShapes (layout (layout p)).children (layout p).children :=
      layout_shapes (layout p)
    refine layout_congr ?_ ?_
      (layout_padding _) (layout_gap _) (layout_direction _) (layout_align _)
      (layout_justify _) (layout_autoSize _) ?_ hshapes
    all_goals
      cases hau : p.autoSize
    -- width, autoSize = false
    · have h1 := layout_size_of_not_autoSize (p := layout p)
        (by rw [layout_autoSize]; exact hau)
      exact h1.1
    -- width, autoSize = true
    · have hq : (layout p).autoSize = true := by rw [layout_autoSize]; exact hau
      have h1 := layout_size_of_autoSize hq hqne
      have h2 := layout_size_of_autoSize hau h0
      have h3 := autoSize_formulas_congr (layout_padding p) (layout_gap p)
        (layout_direction p) (layout_shapes p)
      rw [h1.1, h2.1, h3.1]
    -- height, autoSize = false
    · have h1 := layout_size_of_not_autoSize (p := layout p)
        (by rw [layout_autoSize]; exact hau)
      exact h1.2.1
    -- height, autoSize = true
    · have hq : (layout p).autoSize = true := by rw [layout_autoSize]; exact hau
      have h1 := layout_size_of_autoSize hq hqne
      have h2 := layout_size_of_autoSize hau h0
      have h3 := autoSize_formulas_congr (layout_padding p) (layout_gap p)
        (layout_direction p) (layout_shapes p)
      rw [h1.2.1, h2.2.1, h3.2]
    -- background, autoSize = false
    · have h1 := layout_size_of_not_autoSize (p := layout p)
        (by rw [layout_autoSize]; exact hau)
      exact h1.2.2
    -- background, autoSize = true
    · have hq : (layout p).autoSize = true := by rw [layout_autoSize]; exact hau
      have h1 := layout_size_of_autoSize hq hqne
      have h2 := layout_size_of_autoSize hau h0
      have h3 := autoSize_formulas_congr (layout_padding p) (layout_gap p)
        (layout_direction p) (layout_shapes p)
      rw [h1.2.2, h2.2.2, h3.1, h3.2, Option.map_map]
      rfl

lemma layout_idem_of_not_autoSize {p : UIPanel} (hau : p.autoSize = false) :
    layout (layout p) = layout p := by
  have h1 := layout_size_of_not_autoSize hau
  exact layout_congr h1.1 h1.2.1 (layout_padding _) (layout_gap _) (layout_direction _)
    (layout_align _) (layout_justify _) (layout_autoSize _) h1.2.2 (layout_shapes p)

lemma layout_eq_layoutPhased (p : UIPanel) : layout p = layoutPhased p := by
  unfold layout layoutPhased autoSizeStep positionStep contentMainExtent
  by_cases h0 : p.children.length = 0
  · rw [if_pos h0, if_pos h0]
  · rw [if_neg h0, if_neg h0]
    cases hau : p.autoSize <;> cases hd : p.direction <;> simp [hau, hd]

/-- Closed form of the horizontal placement loop: the i-th placed child is
centred at the accumulator plus all previous main sizes, plus `spacing` per
gap crossed, plus half its own width. -/
lemma placeChildren_getD_x (ctx : PlaceCtx) (hd : ctx.direction = .horizontal)
    (pos : ℚ) (cs : List UIElement) (i : Nat) (hi : i < cs.length) :
    ((placeChildren ctx pos cs).map (fun c => c.position.x)).getD i 0
      = pos + ((cs.take i).map (fun c => c.width)).sum + ctx.spacing * (i : ℚ)
        + ((cs.map (fun c => c.width)).getD i 0) / 2 := by
  induction cs generalizing pos i with
  | nil => simp at hi
  | cons c cs ih =>
    have hstep : placeChildren ctx pos (c :: cs)
        = (placeChild ctx pos c).2 :: placeChildren ctx (placeChild ctx pos c).1 cs := rfl
    have hpc : placeChild ctx pos c
        = (pos + c.width + ctx.spacing,
           { c with position := ⟨pos + c.width / 2, crossPosOf ctx c.height, 1 / 100⟩ }) := by
      unfold placeChild childMainSize childCrossSize
      rw [hd]
    cases i with
    | zero =>
      rw [hstep, hpc]
      simp
    | succ i =>
      have hi' : i < cs.length := by simpa using hi
      rw [hstep, hpc]
      simp only [List.map_cons, List.getD_cons_succ, List.take_succ_cons, List.sum_cons]
      rw [ih (pos + c.width + ctx.spacing) i hi']
      push_cast
      ring

lemma childMainSize_horizontal : childMainSize .horizontal = fun c => c.width := rfl

/-- Under `justify = space-between` with at least two children, horizontal
direction and no autoSize, `layout` runs the placement loop from
`mainStart = -width/2 + paddingLeft` with spacing
`(contentWidth - sum of child widths) / (count - 1)`, the configured gap
cancelling out. -/
lemma layout_children_spaceBetween_h {p : UIPanel}
    (hd : p.direction = .horizontal) (hj : p.justify = .spaceBetween)
    (hau : p.autoSize = false) (hn : 1 < p.children.length) :
    (layout p).children =
      placeChildren
        ⟨.horizontal, p.align, p.width, p.height, p.padding,
          (p.width - p.padding.left - p.padding.right
            - (p.children.map (fun c => c.width)).sum) / ((p.children.length : ℚ) - 1)⟩
        (-p.width / 2 + p.padding.left) p.children := by
  unfold layout
  rw [if_neg (by omega)]
  simp only [hau, hd, hj, Bool.false_eq_true, if_false, resolveJustify, if_pos hn,
    mainStartOf]
  congr 1
  simp only [PlaceCtx.mk.injEq, totalChildMainSize, childMainSize_horizontal, true_and]
  ring

/-- Under `align = center` every placed child has cross coordinate 0. -/
lemma placeChildren_cross_center (ctx : PlaceCtx) (hal : ctx.align = .center)
    (pos : ℚ) (cs : List UIElement) (c : UIElement)
    (hc : c ∈ placeChildren ctx pos cs) :
    (match ctx.direction with
     | .horizontal => c.position.y
     | .vertical => c.position.x) = 0 := by
  induction cs generalizing pos with
  | nil => simp [placeChildren] at hc
  | cons c0 cs ih =>
    have hstep : placeChildren ctx pos (c0 :: cs)
        = (placeChild ctx pos c0).2 :: placeChildren ctx (placeChild ctx pos c0).1 cs := rfl
    rw [hstep] at hc
    rcases List.mem_cons.mp hc with h | h
    · subst h
      cases hdir : ctx.direction <;>
        simp [placeChild, hdir, crossPosOf, hal]
    · exact ih _ h

/-- Single child under `justify = start`, horizontal: the child's x position. -/
lemma layout_single_start_x {p : UIPanel} {c : UIElement}
    (hd : p.direction = .horizontal) (hj : p.justify = .start)
    (hau : p.autoSize = false) (hc : p.children = [c]) :
    (layout p).children.map (fun x => x.position.x)
      = [-p.width / 2 + p.padding.left + c.width / 2] := by
  unfold layout
  rw [hc, if_neg (by simp)]
  simp [hd, hj, hau, resolveJustify, mainStartOf, placeChildren, placeChild, childMainSize]

/-- Single child under `justify = start`, vertical: the child's y position. -/
lemma layout_single_start_y {p : UIPanel} {c : UIElement}
    (hd : p.direction = .vertical) (hj : p.justify = .start)
    (hau : p.autoSize = false) (hc : p.children = [c]) :
    (layout p).children.map (fun x => x.position.y)
      = [p.height / 2 - p.padding.top - c.height / 2] := by
  unfold layout
  rw [hc, if_neg (by simp)]
  simp [hd, hj, hau, resolveJustify, mainStartOf, placeChildren, placeChild, childMainSize]

/-- Function `layout` preserves the background-synchronisation invariant. -/
lemma bgSync_layout {p : UIPanel} (h : bgSync p) : bgSync (layout p) := by
  by_cases h0 : p.children = []
  · rw [layout_of_empty h0]; exact h
  · cases hau : p.autoSize
    · have h1 := layout_size_of_not_autoSize hau
      unfold bgSync at h ⊢
      rw [h1.1, h1.2.1, h1.2.2]
      exact h
    · have h1 := layout_size_of_autoSize hau h0
      unfold bgSync
      rw [h1.1, h1.2.1, h1.2.2]
      cases p.background <;> simp

/-- Every public operation preserves the background-synchronisation invariant. -/
lemma bgSync_runOp (op : PanelOp) {p : UIPanel} (h : bgSync p) :
    bgSync (runOp op p) := by
  cases op with
  | addChild e => exact bgSync_layout (by simpa [bgSync] using h)
  | removeChild e =>
    show bgSync (p.removeChild e)
    unfold UIPanel.removeChild
    split
    · exact bgSync_layout (by simpa [bgSync] using h)
    · exact h
  | clearChildren => exact bgSync_layout (by simpa [bgSync] using h)
  | setDirection d => exact bgSync_layout (by simpa [bgSync] using h)
  | setAlign a => exact bgSync_layout (by simpa [bgSync] using h)
  | setJustify j => exact bgSync_layout (by simpa [bgSync] using h)
  | setGap g => exact bgSync_layout (by simpa [bgSync] using h)
  | setPadding pad => exact bgSync_layout (by simpa [bgSync] using h)
  | setSize w hgt =>
    refine bgSync_layout ?_
    unfold bgSync
    cases p.background <;> simp
  | doLayout => exact bgSync_layout h

lemma bgSync_foldl (ops : List PanelOp) {p : UIPanel} (h : bgSync p) :
    bgSync (ops.foldl (fun q op => runOp op q) p) := by
  induction ops generalizing p with
  | nil => exact h
  | cons op ops ih => exact ih (bgSync_runOp op h)

/-- The constructor establishes the background-synchronisation invariant. -/
lemma bgSync_ofConfig (cfg : UIPanelConfig) : bgSync (UIPanel.ofConfig cfg) := by
  unfold UIPanel.ofConfig bgSync
  dsimp only
  repeat' split
  all_goals simp

/-- Reading back the reference `getChildren` returns yields the panel's
current children. -/
lemma getChildrenRef_read_fresh (st : ChildStore) (r : Nat) :
    (getChildrenRef st r).1.read (getChildrenRef st r).2 = st.read r := by
  unfold getChildrenRef ChildStore.alloc ChildStore.read
  dsimp only
  rw [List.getD_eq_getD_get?, List.get?_eq_getElem?, List.getElem?_concat_length]
  rfl

/-- Writing through the fresh reference returned by `getChildren` does not
change the array behind any valid pre-existing reference. -/
lemma write_fresh_read {st : ChildStore} {r : Nat} (hr : r < st.arrays.length)
    (v : List UIElement) :
    ((getChildrenRef st r).1.write (getChildrenRef st r).2 v).read r = st.read r := by
  unfold getChildrenRef ChildStore.alloc ChildStore.write ChildStore.read
  dsimp only
  rw [List.getD_eq_getD_get?, List.get?_eq_getElem?,
    List.getElem?_set_ne (by omega), List.getElem?_append_left hr,
    ← List.get?_eq_getElem?, ← List.getD_eq_getD_get?]

/-! ### Example panels used by the concrete parts of the claims -/

/-- AutoSize horizontal panel whose entry width (10) differs from the width
its single child dictates (2), under `justify = center`. -/
def exPanelC1 : UIPanel :=
  ⟨10, 10, ⟨0, 0, 0, 0⟩, 0, .horizontal, .center, .center, true, none,
    [⟨2, 2, ⟨0, 0, 0⟩⟩]⟩

/-- Same configuration as `exPanelC1` (fresh copy for claim C2). -/
def exPanelC2 : UIPanel :=
  ⟨10, 10, ⟨0, 0, 0, 0⟩, 0, .horizontal, .center, .center, true, none,
    [⟨2, 2, ⟨0, 0, 0⟩⟩]⟩

/-- A panel with `autoSize = false` (for the amended idempotence witness). -/
def exPanelC2b : UIPanel :=
  ⟨6, 3, ⟨1, 0, 0, 1⟩, 1, .vertical, .start, .spaceAround, false, some (6, 3),
    [⟨1, 1, ⟨0, 0, 0⟩⟩, ⟨2, 1, ⟨0, 0, 0⟩⟩]⟩

/-- Three children of main size 1 in a content main-extent of 10, padding 0,
`justify = space-between`; the configured gap is 1 to exhibit that it is
ignored. -/
def exPanelC3 : UIPanel :=
  ⟨10, 2, ⟨0, 0, 0, 0⟩, 1, .horizontal, .center, .spaceBetween, false, none,
    [⟨1, 1, ⟨0, 0, 0⟩⟩, ⟨1, 1, ⟨0, 0, 0⟩⟩, ⟨1, 1, ⟨0, 0, 0⟩⟩]⟩

/-! ### The claims -/

/-- C1, counterexample.  Claim C1 states that with `autoSize` the positioning
step derives BOTH `mainStart` and the content main extent `mainSize` from the
recomputed container size.  `layoutClaimC1` formalises that reading; on
`exPanelC1` it disagrees with the code: the code computes `contentWidth` from
the entry width 10 and centres the child at x = 4, while the claim's reading
would use the recomputed width 2 and centre it at x = 0. -/
theorem C1_claim_counterexample : layout exPanelC1 ≠ layoutClaimC1 exPanelC1 := by
  have h1 : ((layout exPanelC1).children.map fun c => c.position.x) = [4] := by
    norm_num [layout, exPanelC1, totalChildMainSize, maxChildCrossSize, childMainSize,
      childCrossSize, mainStartOf, resolveJustify, placeChildren, placeChild, crossPosOf]
  have h2 : ((layoutClaimC1 exPanelC1).children.map fun c => c.position.x) = [0] := by
    norm_num [layoutClaimC1, autoSizeStep, positionStep, contentMainExtent, exPanelC1,
      totalChildMainSize, maxChildCrossSize, childMainSize, childCrossSize, mainStartOf,
      resolveJustify, placeChildren, placeChild, crossPosOf]
  intro h
  rw [h, h2] at h1
  exact absurd h1 (by norm_num)

/-- C1, amended: for every layout invocation the container's size and
background are recomputed from the children before any child is positioned
(`autoSizeStep`), and the positioning step derives `mainStart` (and the
cross-axis edges) from the recomputed size, but the content main-axis extent
`mainSize` used by the justify modes from the size the container had on
entry. -/
theorem C1_amended_phase_order (p : UIPanel) : layout p = layoutPhased p :=
  layout_eq_layoutPhased p

/-- C2, counterexample.  With `autoSize` on and `justify = center`, the first
`layout` call shrinks the container from width 10 to 2 but centres the child
using the entry content extent (placing it at x = 4); the second call, with
unchanged children and parameters, re-centres using the updated extent
(x = 0), so `layout` is not idempotent. -/
theorem C2_claim_counterexample : layout (layout exPanelC2) ≠ layout exPanelC2 := by
  have hq : layout exPanelC2
      = (⟨2, 2, ⟨0, 0, 0, 0⟩, 0, .horizontal, .center, .center, true, none,
          [⟨2, 2, ⟨4, 0, 1/100⟩⟩]⟩ : UIPanel) := by
    norm_num [layout, exPanelC2, totalChildMainSize, maxChildCrossSize, childMainSize,
      childCrossSize, mainStartOf, resolveJustify, placeChildren, placeChild, crossPosOf]
  have h2 : ((layout (⟨2, 2, ⟨0, 0, 0, 0⟩, 0, .horizontal, .center, .center, true, none,
          [⟨2, 2, ⟨4, 0, 1/100⟩⟩]⟩ : UIPanel)).children.map fun c => c.position.x)
      = [0] := by
    norm_num [layout, totalChildMainSize, maxChildCrossSize, childMainSize,
      childCrossSize, mainStartOf, resolveJustify, placeChildren, placeChild, crossPosOf]
  intro h
  rw [hq] at h
  rw [h] at h2
  exact absurd h2 (by norm_num)

/-- C2, amended: `layout` is idempotent whenever `autoSize` is off; with
`autoSize` on, the container's size converges after the first call and from
the second call on repeated invocations leave positions and size unchanged. -/
theorem C2_amended_idempotence (p : UIPanel) :
    layout (layout (layout p)) = layout (layout p)
      ∧ (p.autoSize = false → layout (layout p) = layout p) :=
  ⟨layout_fix p, fun h => layout_idem_of_not_autoSize h⟩

theorem C2_amended_idempotence_witness :
    exPanelC2b.autoSize = false ∧ layout (layout exPanelC2b) = layout exPanelC2b :=
  ⟨rfl, (C2_amended_idempotence exPanelC2b).2 rfl⟩

/-- C3: under `justify = space-between` with more than one child the
effective edge-to-edge spacing between consecutive children is
`(mainSize - sumOfChildMainSizes) / (count - 1)` — the configured gap does
not appear — and the first child starts at `mainStart`; concretely, for
3 children of main size 1 in a content main-extent of 10 with padding 0
(and a configured gap of 1, which is ignored), the children sit at
x = -4.5, 0, 4.5, the last flush at the opposite content edge minus half
its size. -/
theorem C3_spaceBetween_spacing :
    (∀ (p : UIPanel) (i : Nat),
      p.direction = .horizontal → p.justify = .spaceBetween → p.autoSize = false →
      i + 1 < p.children.length →
      (((layout p).children.map fun c => c.position.x).getD (i + 1) 0
          - ((layout p).children.map fun c => c.position.x).getD i 0
        = ((p.children.map fun c => c.width).getD i 0) / 2
          + (p.width - p.padding.left - p.padding.right
              - (p.children.map fun c => c.width).sum) / ((p.children.length : ℚ) - 1)
          + ((p.children.map fun c => c.width).getD (i + 1) 0) / 2)
      ∧ ((layout p).children.map fun c => c.position.x).getD 0 0
          = -p.width / 2 + p.padding.left
            + ((p.children.map fun c => c.width).getD 0 0) / 2)
    ∧ ((layout exPanelC3).children.map fun c => c.position.x) = [-9/2, 0, 9/2] := by
  constructor
  · intro p i hd hj hau hi
    have hn : 1 < p.children.length := by omega
    have hrw := layout_children_spaceBetween_h hd hj hau hn
    have hmt : ∀ k, ((p.children.take k).map fun c => c.width)
        = (p.children.map fun c => c.width).take k := by
      intro k
      rw [List.map_take]
    constructor
    · rw [hrw,
        placeChildren_getD_x _ (by rfl) _ _ (i + 1) (by omega),
        placeChildren_getD_x _ (by rfl) _ _ i (by omega)]
      rw [hmt (i + 1), hmt i,
        List.sum_take_succ _ i (by simpa using (by omega : i < p.children.length))]
      rw [List.getD_eq_getElem _ _ (by simpa using hi),
        List.getD_eq_getElem _ _ (by simpa using (show i < p.children.length by omega))]
      push_cast
      ring
    · rw [hrw, placeChildren_getD_x _ (by rfl) _ _ 0 (by omega)]
      simp
  · norm_num [layout, exPanelC3, totalChildMainSize, maxChildCrossSize, childMainSize,
      childCrossSize, mainStartOf, resolveJustify, placeChildren, placeChild, crossPosOf]

theorem C3_spaceBetween_spacing_witness :
    (((layout exPanelC3).children.map fun c => c.position.x).getD 1 0
        - ((layout exPanelC3).children.map fun c => c.position.x).getD 0 0
      = ((exPanelC3.children.map fun c => c.width).getD 0 0) / 2
        + (exPanelC3.width - exPanelC3.padding.left - exPanelC3.padding.right
            - (exPanelC3.children.map fun c => c.width).sum)
          / ((exPanelC3.children.length : ℚ) - 1)
        + ((exPanelC3.children.map fun c => c.width).getD 1 0) / 2)
    ∧ ((layout exPanelC3).children.map fun c => c.position.x).getD 0 0
        = -exPanelC3.width / 2 + exPanelC3.padding.left
          + ((exPanelC3.children.map fun c => c.width).getD 0 0) / 2 :=
  C3_spaceBetween_spacing.1 exPanelC3 0 rfl rfl rfl (by decide)

lemma childMainSize_vertical : childMainSize .vertical = fun c => c.height := rfl

lemma childCrossSize_horizontal : childCrossSize .horizontal = fun c => c.height := rfl

lemma childCrossSize_vertical : childCrossSize .vertical = fun c => c.width := rfl

/-- AutoSize vertical panel: children of heights 1 and 2 (widths 2 and 1),
gap 0.5, zero padding. -/
def exPanelC4 : UIPanel :=
  ⟨10, 10, ⟨0, 0, 0, 0⟩, 1/2, .vertical, .center, .start, true, none,
    [⟨2, 1, ⟨0, 0, 0⟩⟩, ⟨1, 2, ⟨0, 0, 0⟩⟩]⟩

/-- C4: with `autoSize` and a non-empty child list, the container's main-axis
dimension becomes `sum(childMainSize) + gap*(count-1)` plus the two main-axis
paddings and its cross-axis dimension becomes the maximum child cross size
plus the two cross-axis paddings; concretely, vertical direction with child
heights 1 and 2, gap 0.5 and zero padding yields height 3.5 and width equal
to the maximum child width (2). -/
theorem C4_autoSize_dimensions :
    (∀ p : UIPanel, p.autoSize = true → p.children ≠ [] →
      ((layout p).width, (layout p).height)
        = (match p.direction with
           | .horizontal =>
             ((p.children.map fun c => c.width).sum
                + p.gap * ((p.children.length : ℚ) - 1)
                + p.padding.left + p.padding.right,
              (p.children.map fun c => c.height).foldl max 0
                + p.padding.top + p.padding.bottom)
           | .vertical =>
             ((p.children.map fun c => c.width).foldl max 0
                + p.padding.left + p.padding.right,
              (p.children.map fun c => c.height).sum
                + p.gap * ((p.children.length : ℚ) - 1)
                + p.padding.top + p.padding.bottom)))
    ∧ (layout exPanelC4).height = 7/2
    ∧ (layout exPanelC4).width = 2 := by
  refine ⟨?_, ?_, ?_⟩
  · intro p hau hne
    have h := layout_size_of_autoSize hau hne
    rw [h.1, h.2.1]
    unfold autoWidth autoHeight autoMainTotal totalChildMainSize maxChildCrossSize
    cases hd : p.direction <;>
      simp [hd, childMainSize_horizontal, childMainSize_vertical,
        childCrossSize_horizontal, childCrossSize_vertical, List.foldl_map]
  · norm_num [layout, exPanelC4, totalChildMainSize, maxChildCrossSize, childMainSize,
      childCrossSize, mainStartOf, resolveJustify, placeChildren, placeChild, crossPosOf]
  · norm_num [layout, exPanelC4, totalChildMainSize, maxChildCrossSize, childMainSize,
      childCrossSize, mainStartOf, resolveJustify, placeChildren, placeChild, crossPosOf]

theorem C4_autoSize_dimensions_witness :
    ((layout exPanelC4).width, (layout exPanelC4).height)
      = ((exPanelC4.children.map fun c => c.width).foldl max 0
           + exPanelC4.padding.left + exPanelC4.padding.right,
         (exPanelC4.children.map fun c => c.height).sum
           + exPanelC4.gap * ((exPanelC4.children.length : ℚ) - 1)
           + exPanelC4.padding.top + exPanelC4.padding.bottom) :=
  C4_autoSize_dimensions.1 exPanelC4 rfl (by simp [exPanelC4])

/-- C5: starting from any constructor configuration, after any sequence of
public operations (addChild, removeChild, clearChildren, the parameter
setters, setSize and layout itself) the background visual, when present, has
exactly the container's current width and height. -/
theorem C5_background_in_sync (cfg : UIPanelConfig) (ops : List PanelOp) :
    bgSync (ops.foldl (fun p op => runOp op p) (UIPanel.ofConfig cfg)) :=
  bgSync_foldl ops (bgSync_ofConfig cfg)

/-- C6: under `align = center` every child's cross-axis coordinate after
layout is exactly 0, independent of the child's own cross size, the padding
and the container size. -/
theorem C6_align_center_cross_zero (p : UIPanel) (c : UIElement)
    (hal : p.align = .center) (hc : c ∈ (layout p).children) :
    (match p.direction with
     | LayoutDirection.horizontal => c.position.y
     | LayoutDirection.vertical => c.position.x) = 0 := by
  by_cases h0 : p.children.length = 0
  · rw [layout_of_empty (List.length_eq_zero.mp h0), List.length_eq_zero.mp h0] at hc
    simp at hc
  · unfold layout at hc
    rw [if_neg h0] at hc
    dsimp only at hc
    exact placeChildren_cross_center _ hal _ _ _ hc

/-- Horizontal panel with two children of different cross sizes under
`align = center`. -/
def exPanelC6 : UIPanel :=
  ⟨4, 4, ⟨0, 0, 0, 0⟩, 0, .horizontal, .center, .start, false, none,
    [⟨1, 1, ⟨0, 0, 0⟩⟩, ⟨1, 2, ⟨0, 0, 0⟩⟩]⟩

/-- The first child of `exPanelC6` as placed by `layout`. -/
def exChildC6 : UIElement := ⟨1, 1, ⟨-3/2, 0, 1/100⟩⟩

theorem C6_align_center_cross_zero_witness : exChildC6.position.y = 0 :=
  C6_align_center_cross_zero exPanelC6 exChildC6 rfl (by
    norm_num [layout, exPanelC6, exChildC6, totalChildMainSize, maxChildCrossSize,
      childMainSize, childCrossSize, mainStartOf, resolveJustify, placeChildren,
      placeChild, crossPosOf])

/-- C7: the first-child edge coordinate is axis-dependent.  For a single
child under `justify = start`: horizontal places it from
`-width/2 + paddingLeft` (so paddingLeft 1 shifts the placed position right
by exactly 1 versus zero padding), vertical from `height/2 - paddingTop`
(shifted down by paddingTop, with paddingLeft having no effect on the main
coordinate). -/
theorem C7_mainStart_axis_dependent :
    (∀ (p : UIPanel) (c : UIElement),
      p.direction = .horizontal → p.justify = .start → p.autoSize = false →
      p.children = [c] →
      (layout p).children.map (fun x => x.position.x)
        = [-p.width / 2 + p.padding.left + c.width / 2])
    ∧ (∀ (p : UIPanel) (c : UIElement),
      p.direction = .vertical → p.justify = .start → p.autoSize = false →
      p.children = [c] →
      (layout p).children.map (fun x => x.position.y)
        = [p.height / 2 - p.padding.top - c.height / 2])
    ∧ (∀ (p : UIPanel) (c : UIElement),
      p.direction = .horizontal → p.justify = .start → p.autoSize = false →
      p.children = [c] →
      (layout { p with padding := ⟨0, 0, 0, 1⟩ }).children.map (fun x => x.position.x)
        = ((layout { p with padding := ⟨0, 0, 0, 0⟩ }).children.map
            (fun x => x.position.x)).map (fun v => v + 1))
    ∧ (∀ (p : UIPanel) (c : UIElement) (l₁ l₂ : ℚ),
      p.direction = .vertical → p.justify = .start → p.autoSize = false →
      p.children = [c] →
      (layout { p with padding :=
          ⟨p.padding.top, p.padding.right, p.padding.bottom, l₁⟩ }).children.map
          (fun x => x.position.y)
        = (layout { p with padding :=
            ⟨p.padding.top, p.padding.right, p.padding.bottom, l₂⟩ }).children.map
            (fun x => x.position.y))
    ∧ (∀ (p : UIPanel) (c : UIElement) (t : ℚ),
      p.direction = .vertical → p.justify = .start → p.autoSize = false →
      p.children = [c] →
      (layout { p with padding := ⟨t, 0, 0, 0⟩ }).children.map (fun x => x.position.y)
        = ((layout { p with padding := ⟨0, 0, 0, 0⟩ }).children.map
            (fun x => x.position.y)).map (fun v => v - t)) := by
  refine ⟨?_, ?_, ?_, ?_, ?_⟩
  · intro p c hd hj hau hc
    exact layout_single_start_x hd hj hau hc
  · intro p c hd hj hau hc
    exact layout_single_start_y hd hj hau hc
  · intro p c hd hj hau hc
    rw [@layout_single_start_x { p with padding := ⟨0, 0, 0, 1⟩ } c hd hj hau hc,
      @layout_single_start_x { p with padding := ⟨0, 0, 0, 0⟩ } c hd hj hau hc]
    simp only [List.map_cons, List.map_nil, List.cons.injEq, and_true]
    ring
  · intro p c l₁ l₂ hd hj hau hc
    rw [@layout_single_start_y
        { p with padding := ⟨p.padding.top, p.padding.right, p.padding.bottom, l₁⟩ }
        c hd hj hau hc,
      @layout_single_start_y
        { p with padding := ⟨p.padding.top, p.padding.right, p.padding.bottom, l₂⟩ }
        c hd hj hau hc]
  · intro p c t hd hj hau hc
    rw [@layout_single_start_y { p with padding := ⟨t, 0, 0, 0⟩ } c hd hj hau hc,
      @layout_single_start_y { p with padding := ⟨0, 0, 0, 0⟩ } c hd hj hau hc]
    simp only [List.map_cons, List.map_nil, List.cons.injEq, and_true]
    ring

/-- A single child of size (1,1) for the C7 witness. -/
def exPanelC7 : UIPanel :=
  ⟨4, 2, ⟨0, 0, 0, 2⟩, 0, .horizontal, .center, .start, false, none,
    [⟨1, 1, ⟨0, 0, 0⟩⟩]⟩

theorem C7_mainStart_axis_dependent_witness :
    (layout exPanelC7).children.map (fun x => x.position.x)
      = [-exPanelC7.width / 2 + exPanelC7.padding.left + 1 / 2] :=
  C7_mainStart_axis_dependent.1 exPanelC7 ⟨1, 1, ⟨0, 0, 0⟩⟩ rfl rfl rfl rfl

/-- Horizontal 4×2 container, justify=start, align=start, no padding or gap,
single child of size (1,1). -/
def exPanelC8 : UIPanel :=
  ⟨4, 2, ⟨0, 0, 0, 0⟩, 0, .horizontal, .start, .start, false, none,
    [⟨1, 1, ⟨0, 0, 0⟩⟩]⟩

/-- C8: in a horizontal 4×2 container with justify=start, align=start and no
padding or gap, a single (1,1) child ends up at x = -1.5 and y = -0.5. -/
theorem C8_single_child_placement :
    ((layout exPanelC8).children.map fun c => (c.position.x, c.position.y))
      = [(-3/2, -1/2)] := by
  norm_num [layout, exPanelC8, totalChildMainSize, maxChildCrossSize, childMainSize,
    childCrossSize, mainStartOf, resolveJustify, placeChildren, placeChild, crossPosOf]

/-- C9: calling layout with an empty child list leaves the whole container
state — size, background and everything else — unchanged. -/
theorem C9_empty_children_noop (p : UIPanel) (h : p.children = []) : layout p = p :=
  layout_of_empty h

/-- An empty panel with background and autoSize on, for the C9 witness. -/
def exPanelC9 : UIPanel :=
  ⟨5, 7, ⟨1, 1, 1, 1⟩, 2, .horizontal, .start, .spaceAround, true, some (5, 7), []⟩

theorem C9_empty_children_noop_witness :
    exPanelC9.children = [] ∧ layout exPanelC9 = exPanelC9 :=
  ⟨rfl, C9_empty_children_noop exPanelC9 rfl⟩

/-- C10: `getChildren` returns a fresh array.  In the store model, the
returned reference differs from the panel's internal `_children` reference,
and after an arbitrary mutation `f` of the returned array the panel's
internal list, a subsequent `getChildren` and a subsequent `layout` are all
unchanged. -/
theorem C10_getChildren_fresh :
    ∀ (st : ChildStore) (r : Nat) (f : List UIElement → List UIElement) (q : UIPanel),
      r < st.arrays.length →
      (getChildrenRef st r).2 ≠ r
      ∧ ((getChildrenRef st r).1.write (getChildrenRef st r).2
            (f ((getChildrenRef st r).1.read (getChildrenRef st r).2))).read r
          = st.read r
      ∧ (getChildrenRef ((getChildrenRef st r).1.write (getChildrenRef st r).2
            (f ((getChildrenRef st r).1.read (getChildrenRef st r).2))) r).1.read
            (getChildrenRef ((getChildrenRef st r).1.write (getChildrenRef st r).2
              (f ((getChildrenRef st r).1.read (getChildrenRef st r).2))) r).2
          = st.read r
      ∧ layout { q with children :=
            ((getChildrenRef st r).1.write (getChildrenRef st r).2
              (f ((getChildrenRef st r).1.read (getChildrenRef st r).2))).read r }
          = layout { q with children := st.read r } := by
  intro st r f q hr
  have hW := write_fresh_read hr (f ((getChildrenRef st r).1.read (getChildrenRef st r).2))
  refine ⟨?_, hW, ?_, by rw [hW]⟩
  · show st.arrays.length ≠ r
    omega
  · rw [getChildrenRef_read_fresh, hW]

/-- A one-panel store for the C10 witness. -/
def exStoreC10 : ChildStore := ⟨[[⟨1, 1, ⟨0, 0, 0⟩⟩]]⟩

/-- A panel for the C10 witness. -/
def exPanelC10 : UIPanel :=
  ⟨3, 3, ⟨0, 0, 0, 0⟩, 0, .vertical, .center, .start, false, none, []⟩

theorem C10_getChildren_fresh_witness :
    (getChildrenRef exStoreC10 0).2 ≠ 0
    ∧ ((getChildrenRef exStoreC10 0).1.write (getChildrenRef exStoreC10 0).2
          []).read 0
        = exStoreC10.read 0 :=
  ⟨(C10_getChildren_fresh exStoreC10 0 (fun _ => []) exPanelC10 (by simp [exStoreC10])).1,
   (C10_getChildren_fresh exStoreC10 0 (fun _ => []) exPanelC10 (by simp [exStoreC10])).2.1⟩

end ThreeTroikaUI
